import Mathlib

/-!
Verification of the Minisys-1A assembler core (encoder label fixups, data
encoding, pseudo-instruction expander, linker layout).

The TypeScript source is shallowly embedded: JavaScript 32-bit integer
operations are modelled on Nat / Int.  For values in unsigned 32-bit range,
JS bitwise AND / OR / shifts coincide with Nat land / lor / shiftRight;
JS signed arithmetic right shift of a (possibly negative) difference is
floor division on Int, and JS bitwise AND of such a value with 0xFFFF is
the nonnegative remainder modulo 65536, which is exactly what Int division
and Int modulo give in Lean (Int division here is floor division since the
divisors are positive).
-/

/-! ### Encoder: word/byte conversion and label fixups -/

/-- JS ToUint32: reduce an integer to its unsigned 32-bit representative
(applied by the JS unsigned shift in wordToBytes). -/
def jsToUint32 (v : Int) : Nat := (v % 4294967296).toNat

/-- wordToBytes: a 32-bit word as four bytes, most significant byte first. -/
def wordToBytes (word : Int) : List Nat :=
  let w := jsToUint32 word
  [(w >>> 24) &&& 0xFF, (w >>> 16) &&& 0xFF, (w >>> 8) &&& 0xFF, w &&& 0xFF]

/-- The kind tag of a recorded label fixup. -/
inductive FixupType
  | J
  | BRANCH
  deriving DecidableEq

/-- A deferred patch record created during the emit pass. -/
structure LabelFixup where
  instructionIndex : Nat
  label : String
  ftype : FixupType
  deriving DecidableEq

/-- Label-table lookup (context.globalLabels.get). -/
def getLabel (labels : List (String × Nat)) (name : String) : Option Nat :=
  (labels.find? (fun p => p.1 == name)).map (fun p => p.2)

/-- The patched word for a J fixup:
(currentWord & 0xFC000000) | ((labelAddress >>> 2) & 0x3FFFFFF). -/
def jPatch (currentWord labelAddress : Nat) : Nat :=
  let target := (labelAddress >>> 2) &&& 0x3FFFFFF
  (currentWord &&& 0xFC000000) ||| target

/-- The 16-bit offset field computed for a BRANCH fixup:
((labelAddress - (branchAddress + 4)) >> 2) & 0xFFFF in signed JS
arithmetic, with branchAddress = instructionIndex * 4; the arithmetic
right shift is floor division by 4 and the final mask is the nonnegative
remainder modulo 65536. -/
def branchPatchOffset (labelAddress instructionIndex : Nat) : Nat :=
  let branchAddress : Int := (instructionIndex : Int) * 4
  ((((labelAddress : Int) - (branchAddress + 4)) / 4) % 65536).toNat

/-- The patched word for a BRANCH fixup:
(currentWord & 0xFFFF0000) | (offset & 0xFFFF). -/
def branchPatch (currentWord labelAddress instructionIndex : Nat) : Nat :=
  (currentWord &&& 0xFFFF0000) |||
    (branchPatchOffset labelAddress instructionIndex &&& 0xFFFF)

/-- readWordAtInstructionIndex: reassemble a word from four bytes of the
instruction memory (missing bytes read as 0). -/
def readWordAtInstructionIndex (mem : List Nat) (index : Nat) : Nat :=
  let offset := index * 4
  let b0 := mem.getD offset 0
  let b1 := mem.getD (offset + 1) 0
  let b2 := mem.getD (offset + 2) 0
  let b3 := mem.getD (offset + 3) 0
  (((b0 <<< 24) ||| (b1 <<< 16)) ||| (b2 <<< 8)) ||| b3

/-- writeWordAtInstructionIndex: store a word as four big-endian bytes. -/
def writeWordAtInstructionIndex (mem : List Nat) (index word : Nat) : List Nat :=
  let offset := index * 4
  ((((mem.set offset ((word >>> 24) &&& 0xFF)).set (offset + 1)
      ((word >>> 16) &&& 0xFF)).set (offset + 2)
      ((word >>> 8) &&& 0xFF)).set (offset + 3) (word &&& 0xFF))

/-- One fixup resolution step of the resolve pass: an undefined label adds a
diagnostic and leaves memory untouched; a defined label patches the word at
the recorded instruction index. -/
def resolveFixup (labels : List (String × Nat)) (mem : List Nat)
    (errors : List String) (fixup : LabelFixup) : List Nat × List String :=
  match getLabel labels fixup.label with
  | none => (mem, errors ++ ["Undefined label: " ++ fixup.label])
  | some labelAddress =>
    let currentWord := readWordAtInstructionIndex mem fixup.instructionIndex
    let patchedWord :=
      match fixup.ftype with
      | FixupType.J => jPatch currentWord labelAddress
      | FixupType.BRANCH => branchPatch currentWord labelAddress fixup.instructionIndex
    (writeWordAtInstructionIndex mem fixup.instructionIndex patchedWord, errors)

/-- resolveLabels: the resolve (fixup) pass, processing every recorded fixup
in order while accumulating diagnostics. -/
def resolveLabels (labels : List (String × Nat)) (mem : List Nat)
    (errors : List String) : List LabelFixup → List Nat × List String
  | [] => (mem, errors)
  | f :: rest =>
    let st := resolveFixup labels mem errors f
    resolveLabels labels st.1 st.2 rest

/-- Sign extension of a 16-bit field value. -/
def signExt16 (x : Nat) : Int := if x < 32768 then (x : Int) else (x : Int) - 65536

/-! ### Encoder: data segment -/

/-- A value appearing in a data directive (number or string). -/
inductive DataValue
  | num (n : Int)
  | str (s : String)
  deriving DecidableEq

/-- A parsed data directive: its directive name and its values. -/
structure DataDefinition where
  dtype : String
  values : List DataValue
  deriving DecidableEq

/-- The numeric view of a data value (JS `value as number`; a string under a
numeric directive is out of scope and reads as 0 here). -/
def dataValueNum : DataValue → Int
  | .num n => n
  | .str _ => 0

/-- The string view of a data value. -/
def dataValueStr : DataValue → String
  | .num _ => ""
  | .str s => s

/-- encodeDataDefinition: the bytes appended to data memory for one data
directive (the source pushes onto this.dataMemory; modelled as the list of
pushed bytes). -/
def encodeDataDefinition (dataDef : DataDefinition) : List Nat :=
  match dataDef.dtype with
  | "byte" => dataDef.values.map (fun v => (dataValueNum v % 256).toNat)
  | "half" =>
    dataDef.values.flatMap (fun v =>
      let bytes := wordToBytes (dataValueNum v)
      [bytes.getD 2 0, bytes.getD 3 0])
  | "word" => dataDef.values.flatMap (fun v => wordToBytes (dataValueNum v))
  | "ascii" =>
    dataDef.values.flatMap (fun v =>
      (dataValueStr v).data.map (fun c => c.toNat &&& 0xFF))
  | "space" =>
    let size := (dataValueNum ((dataDef.values.headD (DataValue.num 0)))).toNat
    List.replicate size 0
  | _ => []

/-! ### Pseudo-instruction expander

The TypeScript expander substitutes placeholders into template strings and
re-parses them.  The embedding applies the first steps of parseExpansion
(comment stripping, whitespace split, comma removal) to the constant
template strings of PSEUDO_INSTRUCTIONS up front, so a template is a token
list, and fuses replacePlaceholders with parseOperand per token; a numeric
replacement (always a nonnegative decimal numeral in the source) is carried
as a number instead of round-tripping through its decimal string. -/

/-- Operand kind tags. -/
inductive OperandType
  | REGISTER
  | IMMEDIATE
  | LABEL
  | ADDRESS
  deriving DecidableEq

/-- An operand record (optional fields mirror the TS interface; the
diagnostic-only sourceLine strings are not modelled). -/
structure Operand where
  type : OperandType
  value : String
  register : Option Nat
  immediate : Option Int
  label : Option String
  offset : Option Int
  deriving DecidableEq

/-- An instruction record (mnemonic, operands, type tag, opcode, line). -/
structure Instruction where
  mnemonic : String
  operands : List Operand
  itype : String
  opcode : Nat
  lineNumber : Nat
  deriving DecidableEq

/-- Mnemonic-to-instruction-type projection of the INSTRUCTION_SET registry
(the only registry fields the expander reads). -/
def INSTRUCTION_TYPES : List (String × String) :=
  [("add", "R_TYPE"), ("addu", "R_TYPE"), ("sub", "R_TYPE"), ("subu", "R_TYPE"),
   ("and", "R_TYPE"), ("or", "R_TYPE"), ("slt", "R_TYPE"), ("sltu", "R_TYPE"),
   ("jr", "R_TYPE"), ("jalr", "R_TYPE"), ("mult", "R_TYPE"), ("multu", "R_TYPE"),
   ("div", "R_TYPE"), ("divu", "R_TYPE"), ("mfhi", "R_TYPE"), ("mflo", "R_TYPE"),
   ("mthi", "R_TYPE"), ("mtlo", "R_TYPE"),
   ("addi", "I_TYPE"), ("addiu", "I_TYPE"), ("andi", "I_TYPE"), ("ori", "I_TYPE"),
   ("lui", "I_TYPE"), ("lw", "I_TYPE"), ("sw", "I_TYPE"), ("beq", "I_TYPE"),
   ("bne", "I_TYPE"),
   ("j", "J_TYPE"), ("jal", "J_TYPE"),
   ("nop", "SPECIAL"), ("syscall", "SPECIAL"), ("break", "SPECIAL"),
   ("mfc0", "I_TYPE"), ("mtc0", "I_TYPE"), ("eret", "SPECIAL"),
   ("xor", "R_TYPE"), ("nor", "R_TYPE"), ("sll", "R_TYPE"), ("srl", "R_TYPE"),
   ("sra", "R_TYPE"), ("sllv", "R_TYPE"), ("srlv", "R_TYPE"), ("srav", "R_TYPE"),
   ("slti", "I_TYPE"), ("lb", "I_TYPE"), ("sb", "I_TYPE"), ("lh", "I_TYPE"),
   ("sh", "I_TYPE"), ("lbu", "I_TYPE"), ("lhu", "I_TYPE"), ("xori", "I_TYPE"),
   ("sltiu", "I_TYPE"),
   ("blez", "I_TYPE"), ("bgtz", "I_TYPE"), ("bltz", "I_TYPE"), ("bgez", "I_TYPE"),
   ("bgezal", "I_TYPE"), ("bltzal", "I_TYPE")]

/-- getInstructionType: the registry type of a mnemonic, SPECIAL when the
mnemonic is unknown. -/
def getInstructionType (mnemonic : String) : String :=
  match (INSTRUCTION_TYPES.find? (fun p => p.1 == mnemonic)).map (fun p => p.2) with
  | some t => t
  | none => "SPECIAL"

/-- PSEUDO_INSTRUCTIONS: each pseudo mnemonic with its expansion templates,
each template pre-tokenized (whitespace split, commas stripped). -/
def PSEUDO_INSTRUCTIONS : List (String × List (List String)) :=
  [("move", [["add", "$1", "$2", "$zero"]]),
   ("li", [["lui", "$1", "immediate_high"], ["ori", "$1", "$1", "immediate_low"]]),
   ("la", [["lui", "$1", "%hi(address)"], ["ori", "$1", "$1", "%lo(address)"]]),
   ("push", [["addiu", "$sp", "$sp", "-4"], ["sw", "$1", "0($sp)"]]),
   ("pop", [["lw", "$1", "0($sp)"], ["addiu", "$sp", "$sp", "4"]]),
   ("not", [["nor", "$1", "$2", "$zero"]]),
   ("neg", [["sub", "$1", "$zero", "$2"]]),
   ("abs", [["slt", "$at", "$2", "$zero"], ["sub", "$1", "$zero", "$2"],
            ["movn", "$1", "$2", "$at"]]),
   ("b", [["j", "label"]]),
   ("bal", [["jal", "label"]]),
   ("beqz", [["beq", "$1", "$zero", "label"]]),
   ("bnez", [["bne", "$1", "$zero", "label"]]),
   ("bgt", [["slt", "$at", "$3", "$2"], ["bne", "$at", "$zero", "label"]]),
   ("bge", [["slt", "$at", "$2", "$3"], ["beq", "$at", "$zero", "label"]]),
   ("blt", [["slt", "$at", "$2", "$3"], ["bne", "$at", "$zero", "label"]]),
   ("ble", [["slt", "$at", "$3", "$2"], ["beq", "$at", "$zero", "label"]]),
   ("jg", [["slt", "$at", "$3", "$2"], ["bne", "$at", "$zero", "label"]]),
   ("jle", [["slt", "$at", "$2", "$3"], ["beq", "$at", "$zero", "label"]])]

/-- PSEUDO_INSTRUCTION_LOOKUP.get. -/
def pseudoLookup (mnemonic : String) : Option (List (List String)) :=
  (PSEUDO_INSTRUCTIONS.find? (fun p => p.1 == mnemonic)).map (fun p => p.2)

/-- The register-name-to-index map. -/
def REGISTER_MAP : List (String × Nat) :=
  [("zero", 0), ("at", 1), ("v0", 2), ("v1", 3),
   ("a0", 4), ("a1", 5), ("a2", 6), ("a3", 7),
   ("t0", 8), ("t1", 9), ("t2", 10), ("t3", 11), ("t4", 12), ("t5", 13),
   ("t6", 14), ("t7", 15),
   ("s0", 16), ("s1", 17), ("s2", 18), ("s3", 19), ("s4", 20), ("s5", 21),
   ("s6", 22), ("s7", 23),
   ("t8", 24), ("t9", 25), ("k0", 26), ("k1", 27),
   ("gp", 28), ("sp", 29), ("fp", 30), ("ra", 31)]

/-- Lower-casing as used by getRegisterIndex. -/
def jsToLower (s : String) : String := String.mk (s.data.map Char.toLower)

/-- getRegisterIndex: look up a register name, defaulting to 0. -/
def getRegisterIndex (regName : String) : Nat :=
  match (REGISTER_MAP.find? (fun p => p.1 == jsToLower regName)).map (fun p => p.2) with
  | some i => i
  | none => 0

/-- List-level prefix test (JS String.startsWith). -/
def listStarts : List Char → List Char → Bool
  | _, [] => true
  | [], _ :: _ => false
  | c :: cs, q :: qs => c == q && listStarts cs qs

/-- JS String.startsWith. -/
def strStarts (s p : String) : Bool := listStarts s.data p.data

/-- JS String.endsWith. -/
def strEnds (s p : String) : Bool := listStarts s.data.reverse p.data.reverse

/-- JS String.substring from an index. -/
def strDrop (s : String) (n : Nat) : String := String.mk (s.data.drop n)

/-- Emptiness test on a string. -/
def strIsEmpty (s : String) : Bool := s.data.isEmpty

/-- Digit test for the decimal-numeral regexes. -/
def isDigitChar (c : Char) : Bool := 48 ≤ c.toNat && c.toNat ≤ 57

/-- A word character in the sense of the regex \w. -/
def isWordChar (c : Char) : Bool :=
  isDigitChar c || (65 ≤ c.toNat && c.toNat ≤ 90) || (97 ≤ c.toNat && c.toNat ≤ 122)
    || c == '_'

/-- The regex test ^-?[0-9]+$. -/
def isDecimalString (s : String) : Bool :=
  match s.data with
  | [] => false
  | '-' :: rest => !rest.isEmpty && rest.all isDigitChar
  | cs => cs.all isDigitChar

/-- Decimal digit list to number. -/
def digitsToNat (cs : List Char) : Nat :=
  cs.foldl (fun acc c => acc * 10 + (c.toNat - 48)) 0

/-- parseInt on a decimal numeral string. -/
def parseDecimal (s : String) : Int :=
  match s.data with
  | '-' :: rest => - (digitsToNat rest : Int)
  | cs => (digitsToNat cs : Int)

/-- A hexadecimal digit test for the regex 0x[0-9a-fA-F]+. -/
def isHexDigitChar (c : Char) : Bool :=
  isDigitChar c || (97 ≤ c.toNat && c.toNat ≤ 102) || (65 ≤ c.toNat && c.toNat ≤ 70)

/-- The regex test ^0x[0-9a-fA-F]+$. -/
def isHexString (s : String) : Bool :=
  match s.data with
  | '0' :: 'x' :: rest => !rest.isEmpty && rest.all isHexDigitChar
  | _ => false

/-- The value of one hexadecimal digit. -/
def hexDigitVal (c : Char) : Nat :=
  if 48 ≤ c.toNat && c.toNat ≤ 57 then c.toNat - 48
  else if 97 ≤ c.toNat && c.toNat ≤ 102 then c.toNat - 87
  else if 65 ≤ c.toNat && c.toNat ≤ 70 then c.toNat - 55
  else 0

/-- parseInt with radix 16 on a 0x-prefixed numeral. -/
def parseHexadecimal (s : String) : Int :=
  match s.data with
  | '0' :: 'x' :: rest => (rest.foldl (fun acc c => acc * 16 + hexDigitVal c) 0 : Int)
  | _ => 0

/-- getOperandByIndex: positional operand access, none when out of range. -/
def getOperandByIndex (instruction : Instruction) (index : Nat) : Option Operand :=
  if h : index < instruction.operands.length then
    some (instruction.operands.get ⟨index, h⟩)
  else
    none

/-- Convenience constructor for a register operand. -/
def registerOperand (name : String) (idx : Nat) : Operand :=
  Operand.mk OperandType.REGISTER name (some idx) none none none

/-- Convenience constructor for an immediate operand. -/
def immediateOperand (v : Int) : Operand :=
  Operand.mk OperandType.IMMEDIATE (toString v) none (some v) none none

/-- Convenience constructor for a memory-address operand. -/
def addressOperand (text : String) (idx : Nat) (off : Int) : Operand :=
  Operand.mk OperandType.ADDRESS text (some idx) none none (some off)

/-- parseMemoryAddress: the regex ^(-?[0-9]+)\((\$\w+)\)$ producing an
ADDRESS operand from offset(reg) syntax. -/
def parseMemoryAddress (operandStr : String) : Option Operand :=
  let cs := operandStr.data
  let offsetChars := cs.takeWhile (fun c => c ≠ '(')
  match cs.drop offsetChars.length with
  | '(' :: '$' :: more =>
    let nameChars := more.takeWhile isWordChar
    if more.drop nameChars.length = [')'] && !nameChars.isEmpty &&
        isDecimalString (String.mk offsetChars) then
      some (addressOperand operandStr
        (getRegisterIndex (String.mk nameChars))
        (parseDecimal (String.mk offsetChars)))
    else
      none
  | _ => none

/-- parseOperand applied to a (placeholder-substituted) token. -/
def parseOperandStr (operandStr : String) (orig : Instruction) : Option Operand :=
  if strStarts operandStr "$1" then getOperandByIndex orig 0
  else if strStarts operandStr "$2" then getOperandByIndex orig 1
  else if strStarts operandStr "$3" then getOperandByIndex orig 2
  else if strStarts operandStr "$at" then some (registerOperand "$at" 1)
  else if strStarts operandStr "$zero" then some (registerOperand "$zero" 0)
  else if strStarts operandStr "$sp" then some (registerOperand "$sp" 29)
  else if strStarts operandStr "$" then
    some (Operand.mk OperandType.REGISTER operandStr
      (some (getRegisterIndex (strDrop operandStr 1))) none none none)
  else if isDecimalString operandStr then
    some (Operand.mk OperandType.IMMEDIATE operandStr none
      (some (parseDecimal operandStr)) none none)
  else if isHexString operandStr then
    some (Operand.mk OperandType.IMMEDIATE operandStr none
      (some (parseHexadecimal operandStr)) none none)
  else if operandStr.data.contains '(' && operandStr.data.contains ')' then
    parseMemoryAddress operandStr
  else
    some (Operand.mk OperandType.LABEL operandStr none none (some operandStr) none)

/-- The first operand that is an immediate with a defined value
(operands.find in replacePlaceholders, step 2). -/
def findImmediateValue (orig : Instruction) : Option Int :=
  (orig.operands.find? (fun op =>
    decide (op.type = OperandType.IMMEDIATE) && op.immediate.isSome)).bind
    (fun op => op.immediate)

/-- The first operand that is a label with a truthy (nonempty) name
(operands.find in replacePlaceholders, steps 1, 3 and 4). -/
def findLabelName (orig : Instruction) : Option String :=
  ((orig.operands.find? (fun op =>
    decide (op.type = OperandType.LABEL) &&
      (match op.label with
       | some s => !(strIsEmpty s)
       | none => false))).bind (fun op => op.label))

/-- The high half replacement for the immediate_high placeholder:
JS (value >>> 16) & 0xFFFF. -/
def jsHigh16 (value : Int) : Nat := (jsToUint32 value >>> 16) &&& 0xFFFF

/-- The low half replacement for the immediate_low placeholder:
JS value & 0xFFFF. -/
def jsLow16 (value : Int) : Nat := (value % 65536).toNat

/-- The outcome of placeholder replacement on one token: either a
nonnegative numeral (carried as a number) or the (possibly unchanged)
token text. -/
inductive SubstResult
  | imm (n : Nat)
  | txt (s : String)
  deriving DecidableEq

/-- replacePlaceholders restricted to one token: the placeholder tokens
immediate_high / immediate_low / %hi(address) / %lo(address) / label /
address are replaced when their source data is available, and are left
untouched otherwise. -/
def substToken (tok : String) (orig : Instruction)
    (ctx : Option (List (String × Nat))) : SubstResult :=
  if tok = "immediate_high" then
    match findImmediateValue orig with
    | some value => SubstResult.imm (jsHigh16 value)
    | none => SubstResult.txt tok
  else if tok = "immediate_low" then
    match findImmediateValue orig with
    | some value => SubstResult.imm (jsLow16 value)
    | none => SubstResult.txt tok
  else if tok = "%hi(address)" then
    match findLabelName orig, ctx with
    | some name, some labels =>
      match getLabel labels name with
      | some address => SubstResult.imm ((address >>> 16) &&& 0xFFFF)
      | none => SubstResult.txt tok
    | _, _ => SubstResult.txt tok
  else if tok = "%lo(address)" then
    match findLabelName orig, ctx with
    | some name, some labels =>
      match getLabel labels name with
      | some address => SubstResult.imm (address &&& 0xFFFF)
      | none => SubstResult.txt tok
    | _, _ => SubstResult.txt tok
  else if tok = "label" then
    match findLabelName orig with
    | some name => SubstResult.txt name
    | none => SubstResult.txt tok
  else if tok = "address" then
    match findLabelName orig, ctx with
    | some name, some labels =>
      match getLabel labels name with
      | some address => SubstResult.imm address
      | none => SubstResult.txt tok
    | _, _ => SubstResult.txt tok
  else
    SubstResult.txt tok

/-- Placeholder substitution followed by operand parsing for one token. -/
def parseOperandSub (tok : String) (orig : Instruction)
    (ctx : Option (List (String × Nat))) : Option Operand :=
  match substToken tok orig ctx with
  | SubstResult.imm n =>
    some (Operand.mk OperandType.IMMEDIATE (toString n) none (some (n : Int)) none none)
  | SubstResult.txt s => parseOperandStr s orig

/-- parseExpansion on a pre-tokenized template: the first token is the
mnemonic, each remaining token is substituted and parsed, and null operand
parses are silently dropped. -/
def parseExpansion (tokens : List String) (originalInstruction : Instruction)
    (ctx : Option (List (String × Nat))) : Option Instruction :=
  match tokens with
  | [] => none
  | mnemonic :: operandToks =>
    some (Instruction.mk mnemonic
      (operandToks.filterMap (fun t => parseOperandSub t originalInstruction ctx))
      (getInstructionType mnemonic) 0 originalInstruction.lineNumber)

/-- The template-substitution loop of expandPseudoInstruction. -/
def templateExpand (templates : List (List String)) (orig : Instruction)
    (ctx : Option (List (String × Nat))) : List Instruction :=
  templates.filterMap (fun tokens => parseExpansion tokens orig ctx)

/-- The push / pop / jg / jle special cases and the fallthrough to template
substitution (the branch chain after the li special case). -/
def expandSpecialOrTemplate (pseudoDef : List (List String))
    (instruction : Instruction) (ctx : Option (List (String × Nat))) :
    List Instruction :=
  if h : instruction.mnemonic = "push" ∧ 1 ≤ instruction.operands.length then
    let reg := instruction.operands.get ⟨0, by omega⟩
    [Instruction.mk "addiu"
       [registerOperand "$sp" 29, registerOperand "$sp" 29, immediateOperand (-4)]
       "I_TYPE" 0x09 instruction.lineNumber,
     Instruction.mk "sw" [reg, addressOperand "0($sp)" 29 0]
       "I_TYPE" 0x2B instruction.lineNumber]
  else if h : instruction.mnemonic = "pop" ∧ 1 ≤ instruction.operands.length then
    let reg := instruction.operands.get ⟨0, by omega⟩
    [Instruction.mk "lw" [reg, addressOperand "0($sp)" 29 0]
       "I_TYPE" 0x23 instruction.lineNumber,
     Instruction.mk "addiu"
       [registerOperand "$sp" 29, registerOperand "$sp" 29, immediateOperand 4]
       "I_TYPE" 0x09 instruction.lineNumber]
  else if h : instruction.mnemonic = "jg" ∧ 3 ≤ instruction.operands.length then
    let reg1 := instruction.operands.get ⟨0, by omega⟩
    let reg2 := instruction.operands.get ⟨1, by omega⟩
    let lab := instruction.operands.get ⟨2, by omega⟩
    [Instruction.mk "slt" [registerOperand "$at" 1, reg2, reg1]
       "R_TYPE" 0x00 instruction.lineNumber,
     Instruction.mk "bne" [registerOperand "$at" 1, registerOperand "$zero" 0, lab]
       "I_TYPE" 0x05 instruction.lineNumber]
  else if h : instruction.mnemonic = "jle" ∧ 3 ≤ instruction.operands.length then
    let reg1 := instruction.operands.get ⟨0, by omega⟩
    let reg2 := instruction.operands.get ⟨1, by omega⟩
    let lab := instruction.operands.get ⟨2, by omega⟩
    [Instruction.mk "slt" [registerOperand "$at" 1, reg1, reg2]
       "R_TYPE" 0x00 instruction.lineNumber,
     Instruction.mk "beq" [registerOperand "$at" 1, registerOperand "$zero" 0, lab]
       "I_TYPE" 0x04 instruction.lineNumber]
  else
    templateExpand pseudoDef instruction ctx

/-- expandPseudoInstruction: a non-pseudo instruction is returned unchanged
as a singleton; li with a small immediate becomes a single addi; li with a
large immediate and every other pseudo go through the special cases or the
template machinery. -/
def expandPseudoInstruction (ctx : Option (List (String × Nat)))
    (instruction : Instruction) : List Instruction :=
  match pseudoLookup instruction.mnemonic with
  | none => [instruction]
  | some pseudoDef =>
    if instruction.mnemonic = "li" ∧ 2 ≤ instruction.operands.length then
      match getOperandByIndex instruction 0, getOperandByIndex instruction 1 with
      | some targetReg, some immediate =>
        match immediate.type, immediate.immediate with
        | OperandType.IMMEDIATE, some value =>
          if -32768 ≤ value ∧ value ≤ 32767 then
            [Instruction.mk "addi" [targetReg, registerOperand "$zero" 0, immediate]
               "I_TYPE" 0x08 instruction.lineNumber]
          else
            expandSpecialOrTemplate pseudoDef instruction ctx
        | _, _ => expandSpecialOrTemplate pseudoDef instruction ctx
      | _, _ => expandSpecialOrTemplate pseudoDef instruction ctx
    else
      expandSpecialOrTemplate pseudoDef instruction ctx

/-! ### Linker

The linker is a pure function of the four fragment texts; the excluded
parser that countInstructions calls is abstracted as a ParseOutcome
argument (thrown, or a context with a diagnostics list and an optional
text segment). -/

/-- BIOS region instruction budget. -/
def BIOS_MAX_INSTRUCTIONS : Nat := 320

/-- User-application region instruction budget. -/
def USER_APP_MAX_INSTRUCTIONS : Nat := 5120

/-- The fixed middle empty region, always all padding. -/
def MIDDLE_EMPTY_INSTRUCTIONS : Nat := 39680 / 4

/-- Interrupt-entry region instruction budget. -/
def INT_ENTRY_MAX_INSTRUCTIONS : Nat := 320

/-- Interrupt-handler region instruction budget. -/
def INT_HANDLER_MAX_INSTRUCTIONS : Nat := 704

/-- Total linked memory size in bytes (64KB). -/
def TOTAL_MEMORY_SIZE : Nat := 0xFFFF + 1

/-- Whitespace as removed by trim on the assembly lines handled here. -/
def isSpaceChar (c : Char) : Bool := c == ' ' || c == '\t' || c == '\r' || c == '\n'

/-- Split a character list at newline characters. -/
def splitLinesAux (cur : List Char) : List Char → List (List Char)
  | [] => [cur.reverse]
  | c :: rest =>
    if c = '\n' then cur.reverse :: splitLinesAux [] rest
    else splitLinesAux (c :: cur) rest

/-- JS split on the newline character. -/
def splitLines (s : String) : List String := (splitLinesAux [] s.data).map String.mk

/-- JS String.trim on a line. -/
def jsTrim (s : String) : String :=
  String.mk (((s.data.dropWhile isSpaceChar).reverse.dropWhile isSpaceChar).reverse)

/-- The catch-branch estimate of countInstructions: the number of trimmed
lines that are nonempty, do not start with a comment or directive marker,
and do not end with a label colon. -/
def countFallback (asmCode : String) : Nat :=
  let lines :=
    ((splitLines asmCode).map jsTrim).filter (fun line =>
      !strIsEmpty line && !strStarts line "#" && !strStarts line ".")
  (lines.filter (fun line => !strEnds line ":")).length

/-- The outcome of the excluded parser on a fragment. -/
inductive ParseOutcome
  | thrown
  | parsed (errors : List String) (textSegment : Option (List Instruction))

/-- countInstructions: parse and expand to count instructions; any parser
throw, and the internal throw on a nonempty parser diagnostics list, are
caught and answered with the line-count estimate; a missing text segment
counts 0. -/
def countInstructions (po : ParseOutcome) (asmCode : String) : Nat :=
  match po with
  | ParseOutcome.thrown => countFallback asmCode
  | ParseOutcome.parsed errors textSegment =>
    if !errors.isEmpty then countFallback asmCode
    else
      match textSegment with
      | none => 0
      | some instructions =>
        (instructions.map (fun ins => (expandPseudoInstruction none ins).length)).sum

/-- NOP padding for the BIOS region. -/
def biosNopPadding (biosInsCount : Nat) : Nat := BIOS_MAX_INSTRUCTIONS - biosInsCount

/-- NOP padding for the user-application region. -/
def userNopPadding (userInsCount : Nat) : Nat := USER_APP_MAX_INSTRUCTIONS - userInsCount

/-- NOP padding for the interrupt-entry region. -/
def intEntryNopPadding (intEntryInsCount : Nat) : Nat :=
  INT_ENTRY_MAX_INSTRUCTIONS - intEntryInsCount

/-- NOP padding for the interrupt-handler region. -/
def intHandlerNopPadding (intHandlerInsCount : Nat) : Nat :=
  INT_HANDLER_MAX_INSTRUCTIONS - intHandlerInsCount

/-- The grand total of content and padding across the five regions. -/
def linkTotalLength (b u e h : Nat) : Nat :=
  b + biosNopPadding b + u + userNopPadding u + MIDDLE_EMPTY_INSTRUCTIONS +
    e + intEntryNopPadding e + h + intHandlerNopPadding h

/-- A run of n padding nop lines. -/
def nopLines (n : Nat) : String := String.join (List.replicate n "nop\n")

/-- The concatenated program text built by linkAll once all checks pass. -/
def buildLinkedProgram (biosASM userASM intEntryASM intHandlerASM : String)
    (b u e h : Nat) : String :=
  "# ====== BIOS START ======\n" ++
  ("# BIOS Length = " ++ toString b ++ "\n") ++
  (biosASM ++ "\n") ++
  (if 0 < biosNopPadding b then
    ("# BIOS Padding = " ++ toString (biosNopPadding b) ++ "\n") ++
      nopLines (biosNopPadding b)
   else "") ++
  "# ====== BIOS END ======\n\n" ++
  "# ====== User Application START ======\n" ++
  ("# User Application Length = " ++ toString u ++ "\n") ++
  (userASM ++ "\n") ++
  (if 0 < userNopPadding u then
    ("# User Application Padding = " ++ toString (userNopPadding u) ++ "\n") ++
      nopLines (userNopPadding u)
   else "") ++
  "# ====== User Application END ======\n\n" ++
  "# ====== Empty Region START ======\n" ++
  ("# Empty Region Length = " ++ toString MIDDLE_EMPTY_INSTRUCTIONS ++ "\n") ++
  nopLines MIDDLE_EMPTY_INSTRUCTIONS ++
  "# ====== Empty Region END ======\n\n" ++
  "# ====== Interrupt Entry START ======\n" ++
  ("# Interrupt Entry Length = " ++ toString e ++ "\n") ++
  (intEntryASM ++ "\n") ++
  (if 0 < intEntryNopPadding e then
    ("# Interrupt Entry Padding = " ++ toString (intEntryNopPadding e) ++ "\n") ++
      nopLines (intEntryNopPadding e)
   else "") ++
  "# ====== Interrupt Entry END ======\n\n" ++
  "# ====== Interrupt Handler START ======\n" ++
  ("# Interrupt Handler Length = " ++ toString h ++ "\n") ++
  (intHandlerASM ++ "\n") ++
  (if 0 < intHandlerNopPadding h then
    ("# Interrupt Handler Padding = " ++ toString (intHandlerNopPadding h) ++ "\n") ++
      nopLines (intHandlerNopPadding h)
   else "") ++
  "# ====== Interrupt Handler END ======\n"

/-- linkAll after the four instruction counts are computed: validate each
fragment against its budget, validate the grand total, then emit the
concatenated program; a throw is an error result. -/
def linkAllCore (biosASM userASM intEntryASM intHandlerASM : String)
    (biosInsCount userInsCount intEntryInsCount intHandlerInsCount : Nat) :
    Except String String :=
  if BIOS_MAX_INSTRUCTIONS < biosInsCount then
    Except.error ("BIOS程序段过长：" ++ toString biosInsCount ++ "条指令，最多" ++
      toString BIOS_MAX_INSTRUCTIONS ++ "条")
  else if USER_APP_MAX_INSTRUCTIONS < userInsCount then
    Except.error ("用户程序段过长：" ++ toString userInsCount ++ "条指令，最多" ++
      toString USER_APP_MAX_INSTRUCTIONS ++ "条")
  else if INT_ENTRY_MAX_INSTRUCTIONS < intEntryInsCount then
    Except.error ("中断处理程序入口过长：" ++ toString intEntryInsCount ++ "条指令，最多" ++
      toString INT_ENTRY_MAX_INSTRUCTIONS ++ "条")
  else if INT_HANDLER_MAX_INSTRUCTIONS < intHandlerInsCount then
    Except.error ("中断处理程序过长：" ++ toString intHandlerInsCount ++ "条指令，最多" ++
      toString INT_HANDLER_MAX_INSTRUCTIONS ++ "条")
  else if linkTotalLength biosInsCount userInsCount intEntryInsCount intHandlerInsCount * 4 ≠
      TOTAL_MEMORY_SIZE then
    Except.error ("IMEM布局总长度不正确：有 " ++
      toString (linkTotalLength biosInsCount userInsCount intEntryInsCount
        intHandlerInsCount * 4) ++ " Bytes，应为 " ++ toString TOTAL_MEMORY_SIZE ++ " Bytes")
  else
    Except.ok (buildLinkedProgram biosASM userASM intEntryASM intHandlerASM
      biosInsCount userInsCount intEntryInsCount intHandlerInsCount)

/-- linkAll: count each fragment (through parse and expand, with the
stated fallback) and lay out the image. -/
def linkAll (biosPO userPO intEntryPO intHandlerPO : ParseOutcome)
    (biosASM userASM intEntryASM intHandlerASM : String) : Except String String :=
  linkAllCore biosASM userASM intEntryASM intHandlerASM
    (countInstructions biosPO biosASM) (countInstructions userPO userASM)
    (countInstructions intEntryPO intEntryASM)
    (countInstructions intHandlerPO intHandlerASM)

/-! ### Bit-arithmetic bridges -/

/-- Masking with a low-bit mask is reduction modulo a power of two. -/
theorem land_two_pow_sub_one (x n : Nat) : x &&& (2 ^ n - 1) = x % 2 ^ n := by
  apply Nat.eq_of_testBit_eq
  intro i
  rw [Nat.testBit_land, Nat.testBit_two_pow_sub_one, Nat.testBit_mod_two_pow,
    Bool.and_comm]

/-- Decomposition of a block mask of high bits. -/
theorem pow_sub_pow_eq (n m : Nat) (hnm : n ≤ m) :
    2 ^ m - 2 ^ n = 2 ^ n * (2 ^ (m - n) - 1) := by
  have hpow : 2 ^ n * 2 ^ (m - n) = 2 ^ m := by
    rw [← pow_add]
    congr 1
    omega
  calc 2 ^ m - 2 ^ n = 2 ^ n * 2 ^ (m - n) - 2 ^ n * 1 := by rw [hpow, Nat.mul_one]
    _ = 2 ^ n * (2 ^ (m - n) - 1) := (Nat.mul_sub _ _ _).symm

/-- Masking a value below 2 ^ m with the mask 2 ^ m − 2 ^ n (a block of high
bits) clears the low n bits. -/
theorem land_high_mask (x n m : Nat) (hnm : n ≤ m) (hx : x < 2 ^ m) :
    x &&& (2 ^ m - 2 ^ n) = x / 2 ^ n * 2 ^ n := by
  apply Nat.eq_of_testBit_eq
  intro i
  have hmask : 2 ^ m - 2 ^ n = 2 ^ n * (2 ^ (m - n) - 1) + 0 := by
    rw [pow_sub_pow_eq n m hnm, Nat.add_zero]
  have hdiv : x / 2 ^ n * 2 ^ n = 2 ^ n * (x / 2 ^ n) + 0 := by ring
  have hpos : (0 : Nat) < 2 ^ n := Nat.two_pow_pos n
  rw [Nat.testBit_land, hmask, hdiv,
    Nat.testBit_mul_pow_two_add _ hpos i, Nat.testBit_mul_pow_two_add _ hpos i]
  by_cases hin : i < n
  · simp [hin, Nat.zero_testBit]
  · simp only [if_neg hin]
    have hq : (x / 2 ^ n).testBit (i - n) = x.testBit i := by
      rw [← Nat.shiftRight_eq_div_pow, Nat.testBit_shiftRight,
        Nat.add_sub_cancel' (Nat.le_of_not_lt hin)]
    rw [Nat.testBit_two_pow_sub_one, hq]
    by_cases him : i < m
    · have : i - n < m - n := by omega
      simp [this]
    · have hx' : x.testBit i = false :=
        Nat.testBit_lt_two_pow
          (lt_of_lt_of_le hx (Nat.pow_le_pow_right (by norm_num) (Nat.le_of_not_lt him)))
      have : ¬ (i - n < m - n) := by omega
      simp [this, hx']

/-- Bitwise OR of values occupying disjoint bit ranges is addition. -/
theorem lor_eq_add_of_disjoint (a b n : Nat) (ha : a % 2 ^ n = 0) (hb : b < 2 ^ n) :
    a ||| b = a + b := by
  obtain ⟨c, hc⟩ : 2 ^ n ∣ a := Nat.dvd_of_mod_eq_zero ha
  subst hc
  apply Nat.eq_of_testBit_eq
  intro i
  rw [Nat.testBit_lor]
  have hpos : (0 : Nat) < 2 ^ n := Nat.two_pow_pos n
  have h1 : (2 ^ n * c + b).testBit i =
      if i < n then b.testBit i else c.testBit (i - n) :=
    Nat.testBit_mul_pow_two_add c hb i
  have h2 : (2 ^ n * c).testBit i =
      if i < n then (0 : Nat).testBit i else c.testBit (i - n) := by
    have h := Nat.testBit_mul_pow_two_add c (show (0 : Nat) < 2 ^ n from hpos) i
    simpa using h
  rw [h1, h2]
  by_cases hin : i < n
  · simp [hin, Nat.zero_testBit]
  · have hbi : b.testBit i = false :=
      Nat.testBit_lt_two_pow
        (lt_of_lt_of_le hb (Nat.pow_le_pow_right (by norm_num) (Nat.le_of_not_lt hin)))
    simp [hin, hbi]

/-- The branch offset field is a 16-bit value. -/
theorem branchPatchOffset_lt (labelAddress instructionIndex : Nat) :
    branchPatchOffset labelAddress instructionIndex < 65536 := by
  simp only [branchPatchOffset]
  have h1 : (0 : Int) ≤
      (((labelAddress : Int) - ((instructionIndex : Int) * 4 + 4)) / 4) % 65536 :=
    Int.emod_nonneg _ (by norm_num)
  have h2 : (((labelAddress : Int) - ((instructionIndex : Int) * 4 + 4)) / 4) % 65536 <
      65536 :=
    Int.emod_lt_of_pos _ (by norm_num)
  omega

/-- branchPatch splits into the preserved high half plus the offset. -/
theorem branchPatch_eq_add (currentWord labelAddress instructionIndex : Nat)
    (hw : currentWord < 4294967296) :
    branchPatch currentWord labelAddress instructionIndex =
      currentWord / 65536 * 65536 + branchPatchOffset labelAddress instructionIndex := by
  unfold branchPatch
  have hofflt := branchPatchOffset_lt labelAddress instructionIndex
  have hmask : (0xFFFF0000 : Nat) = 2 ^ 32 - 2 ^ 16 := by norm_num
  have hmask2 : (0xFFFF : Nat) = 2 ^ 16 - 1 := by norm_num
  have hmodlt : branchPatchOffset labelAddress instructionIndex % 2 ^ 16 < 2 ^ 16 :=
    Nat.mod_lt _ (by norm_num)
  have hzero : currentWord / 2 ^ 16 * 2 ^ 16 % 2 ^ 16 = 0 := Nat.mul_mod_left _ _
  rw [hmask, hmask2,
    land_high_mask currentWord 16 32 (by norm_num) (by norm_num at hw ⊢; omega),
    land_two_pow_sub_one, lor_eq_add_of_disjoint _ _ 16 hzero hmodlt,
    Nat.mod_eq_of_lt (show branchPatchOffset labelAddress instructionIndex < 2 ^ 16 by
      norm_num at hofflt ⊢; omega)]
  norm_num

/-! ### Claim theorems: encoder fixups -/

/-- Claim C1: a BRANCH fixup patch keeps the upper 16 bits of the
previously emitted word and sets the low 16 bits to
((labelAddress − (branchAddr + 4)) >> 2) & 0xFFFF with
branchAddr = instructionIndex * 4; and for a word-aligned target within
±128KB, sign-extending the encoded field, shifting left by 2 and adding
(branch address + 4) recovers the label address exactly. -/
theorem branch_fixup_correct (currentWord labelAddress instructionIndex : Nat)
    (hw : currentWord < 4294967296)
    (halign : labelAddress % 4 = 0)
    (hlo : -131072 ≤ (labelAddress : Int) - ((instructionIndex : Int) * 4 + 4))
    (hhi : (labelAddress : Int) - ((instructionIndex : Int) * 4 + 4) ≤ 131068) :
    branchPatch currentWord labelAddress instructionIndex / 65536 = currentWord / 65536 ∧
    branchPatch currentWord labelAddress instructionIndex % 65536 =
      branchPatchOffset labelAddress instructionIndex ∧
    signExt16 (branchPatch currentWord labelAddress instructionIndex % 65536) * 4 +
      ((instructionIndex : Int) * 4 + 4) = (labelAddress : Int) := by
  have hofflt := branchPatchOffset_lt labelAddress instructionIndex
  have heq := branchPatch_eq_add currentWord labelAddress instructionIndex hw
  have hdiv : branchPatch currentWord labelAddress instructionIndex / 65536 =
      currentWord / 65536 := by
    rw [heq]
    omega
  have hmod : branchPatch currentWord labelAddress instructionIndex % 65536 =
      branchPatchOffset labelAddress instructionIndex := by
    rw [heq]
    omega
  refine ⟨hdiv, hmod, ?_⟩
  rw [hmod]
  simp only [branchPatchOffset, signExt16]
  split
  · omega
  · omega

/-- Witness for C1 at a concrete branch: word 0x11A40000 at index 0
targeting address 8. -/
theorem branch_fixup_witness :
    branchPatch 0x11A40000 8 0 / 65536 = 0x11A40000 / 65536 ∧
    branchPatch 0x11A40000 8 0 % 65536 = branchPatchOffset 8 0 ∧
    signExt16 (branchPatch 0x11A40000 8 0 % 65536) * 4 +
      (((0 : Nat) : Int) * 4 + 4) = ((8 : Nat) : Int) :=
  branch_fixup_correct 0x11A40000 8 0 (by decide) (by decide) (by decide) (by decide)

/-- jPatch splits into the preserved opcode bits plus the 26-bit field. -/
theorem jPatch_eq_add (currentWord labelAddress : Nat)
    (hw : currentWord < 4294967296) :
    jPatch currentWord labelAddress =
      currentWord / 67108864 * 67108864 + labelAddress / 4 % 67108864 := by
  have hfield : (labelAddress >>> 2) &&& 0x3FFFFFF = labelAddress / 4 % 67108864 := by
    rw [Nat.shiftRight_eq_div_pow]
    have hm : (0x3FFFFFF : Nat) = 2 ^ 26 - 1 := by norm_num
    rw [hm, land_two_pow_sub_one]
    norm_num
  have hhigh : currentWord &&& 0xFC000000 = currentWord / 67108864 * 67108864 := by
    have hm : (0xFC000000 : Nat) = 2 ^ 32 - 2 ^ 26 := by norm_num
    rw [hm, land_high_mask currentWord 26 32 (by norm_num) (by norm_num; omega)]
    norm_num
  have h26 : (67108864 : Nat) = 2 ^ 26 := by norm_num
  have h0 : currentWord / 67108864 * 67108864 % 2 ^ 26 = 0 := by
    rw [← h26]
    exact Nat.mul_mod_left _ _
  have hb : labelAddress / 4 % 67108864 < 2 ^ 26 := by
    rw [← h26]
    exact Nat.mod_lt _ (by norm_num)
  simp only [jPatch]
  rw [hfield, hhigh, lor_eq_add_of_disjoint _ _ 26 h0 hb]

/-- Claim C2: a J fixup patch is
(previousWord & 0xFC000000) | ((labelAddress >> 2) & 0x3FFFFFF), the
opcode bits (top 6) are preserved, and for a word-aligned label in the
same 256MB segment, the 26-bit field shifted left by 2, OR-ed with the
high 4 bits of the instruction address, is the label address. -/
theorem j_fixup_correct (currentWord labelAddress instrAddress : Nat)
    (hw : currentWord < 4294967296) (hl : labelAddress < 4294967296)
    (ha : instrAddress < 4294967296) (halign : labelAddress % 4 = 0)
    (hseg : instrAddress / 268435456 = labelAddress / 268435456) :
    jPatch currentWord labelAddress =
      (currentWord &&& 0xFC000000) ||| ((labelAddress >>> 2) &&& 0x3FFFFFF) ∧
    jPatch currentWord labelAddress / 67108864 = currentWord / 67108864 ∧
    ((jPatch currentWord labelAddress % 67108864) <<< 2) |||
      (instrAddress &&& 0xF0000000) = labelAddress := by
  have hsum := jPatch_eq_add currentWord labelAddress hw
  have hb : labelAddress / 4 % 67108864 < 67108864 := Nat.mod_lt _ (by norm_num)
  refine ⟨rfl, by rw [hsum]; omega, ?_⟩
  have hmod : jPatch currentWord labelAddress % 67108864 =
      labelAddress / 4 % 67108864 := by
    rw [hsum]
    omega
  have hinstr : instrAddress &&& 0xF0000000 = instrAddress / 268435456 * 268435456 := by
    have hm : (0xF0000000 : Nat) = 2 ^ 32 - 2 ^ 28 := by norm_num
    rw [hm, land_high_mask instrAddress 28 32 (by norm_num) (by norm_num; omega)]
    norm_num
  rw [hmod, hinstr, Nat.shiftLeft_eq, Nat.lor_comm]
  have h0 : instrAddress / 268435456 * 268435456 % 2 ^ 28 = 0 := by
    have hm : (268435456 : Nat) = 2 ^ 28 := by norm_num
    rw [← hm]
    exact Nat.mul_mod_left _ _
  have hblt : labelAddress / 4 % 67108864 * 2 ^ 2 < 2 ^ 28 := by
    norm_num
    omega
  rw [lor_eq_add_of_disjoint _ _ 28 h0 hblt]
  norm_num
  omega

/-- Witness for C2 at a concrete jump: j word 0x08000000 at address 0
targeting address 0x500. -/
theorem j_fixup_witness :
    jPatch 0x08000000 0x500 =
      ((0x08000000 : Nat) &&& 0xFC000000) ||| (((0x500 : Nat) >>> 2) &&& 0x3FFFFFF) ∧
    jPatch 0x08000000 0x500 / 67108864 = 0x08000000 / 67108864 ∧
    ((jPatch 0x08000000 0x500 % 67108864) <<< 2) |||
      ((0 : Nat) &&& 0xF0000000) = 0x500 :=
  j_fixup_correct 0x08000000 0x500 0 (by decide) (by decide) (by decide) (by decide)
    (by decide)

/-- The memory component of the resolve pass does not depend on the error
accumulator. -/
theorem resolveLabels_fst_indep (fixups : List LabelFixup)
    (labels : List (String × Nat)) :
    ∀ mem e1 e2, (resolveLabels labels mem e1 fixups).1 =
      (resolveLabels labels mem e2 fixups).1 := by
  induction fixups with
  | nil => intro mem e1 e2; rfl
  | cons f rest ih =>
    intro mem e1 e2
    simp only [resolveLabels, resolveFixup]
    cases hg : getLabel labels f.label with
    | none => simpa using ih mem _ _
    | some addr => simpa using ih _ _ _

/-- Claim C7: in the resolve pass every fixup with an undefined label is
recorded as an "Undefined label" diagnostic without aborting: the error
list grows by exactly those diagnostics in fixup order, and the final
memory equals the memory produced by patching the defined fixups alone. -/
theorem resolve_pass_continues (labels : List (String × Nat))
    (fixups : List LabelFixup) (mem : List Nat) (errors : List String) :
    (resolveLabels labels mem errors fixups).2 =
      errors ++ (fixups.filter (fun f => (getLabel labels f.label).isNone)).map
        (fun f => "Undefined label: " ++ f.label) ∧
    (resolveLabels labels mem errors fixups).1 =
      (resolveLabels labels mem errors
        (fixups.filter (fun f => (getLabel labels f.label).isSome))).1 := by
  induction fixups generalizing mem errors with
  | nil => simp [resolveLabels]
  | cons f rest ih =>
    cases hg : getLabel labels f.label with
    | none =>
      have hfilts : (f :: rest).filter (fun f => (getLabel labels f.label).isSome) =
          rest.filter (fun f => (getLabel labels f.label).isSome) := by
        simp [List.filter_cons, hg]
      have hfiltn : (f :: rest).filter (fun f => (getLabel labels f.label).isNone) =
          f :: rest.filter (fun f => (getLabel labels f.label).isNone) := by
        simp [List.filter_cons, hg]
      constructor
      · rw [hfiltn]
        simp only [resolveLabels, resolveFixup, hg]
        rw [(ih _ _).1]
        simp
      · rw [hfilts]
        simp only [resolveLabels, resolveFixup, hg]
        rw [(ih _ _).2]
        exact resolveLabels_fst_indep _ _ _ _ _
    | some addr =>
      have hfilts : (f :: rest).filter (fun f => (getLabel labels f.label).isSome) =
          f :: rest.filter (fun f => (getLabel labels f.label).isSome) := by
        simp [List.filter_cons, hg]
      have hfiltn : (f :: rest).filter (fun f => (getLabel labels f.label).isNone) =
          rest.filter (fun f => (getLabel labels f.label).isNone) := by
        simp [List.filter_cons, hg]
      constructor
      · rw [hfiltn]
        simp only [resolveLabels, resolveFixup, hg]
        exact (ih _ _).1
      · rw [hfilts]
        simp only [resolveLabels, resolveFixup, hg]
        exact (ih _ _).2

/-- The unsigned 32-bit representative is below 2 ^ 32. -/
theorem jsToUint32_lt (v : Int) : jsToUint32 v < 4294967296 := by
  simp only [jsToUint32]
  have h1 : (0 : Int) ≤ v % 4294967296 := Int.emod_nonneg _ (by norm_num)
  have h2 : v % 4294967296 < 4294967296 := Int.emod_lt_of_pos _ (by norm_num)
  omega

/-- Claim C8: every emitted word is laid out big-endian: the four bytes are
the word parts from most to least significant, recombining them most
significant first recovers the 32-bit word, and the data directive
.word 5 produces the bytes [0, 0, 0, 5]. -/
theorem word_bytes_big_endian :
    (∀ w : Int, wordToBytes w =
      [jsToUint32 w / 16777216, jsToUint32 w / 65536 % 256,
       jsToUint32 w / 256 % 256, jsToUint32 w % 256]) ∧
    (∀ w : Int, (wordToBytes w).foldl (fun acc b => acc * 256 + b) 0 = jsToUint32 w) ∧
    encodeDataDefinition (DataDefinition.mk "word" [DataValue.num 5]) = [0, 0, 0, 5] := by
  have hbytes : ∀ w : Int, wordToBytes w =
      [jsToUint32 w / 16777216, jsToUint32 w / 65536 % 256,
       jsToUint32 w / 256 % 256, jsToUint32 w % 256] := by
    intro w
    have hlt := jsToUint32_lt w
    simp only [wordToBytes]
    rw [Nat.shiftRight_eq_div_pow, Nat.shiftRight_eq_div_pow, Nat.shiftRight_eq_div_pow]
    have h255 : (0xFF : Nat) = 2 ^ 8 - 1 := by norm_num
    rw [h255, land_two_pow_sub_one, land_two_pow_sub_one, land_two_pow_sub_one,
      land_two_pow_sub_one]
    simp only [List.cons.injEq, and_true]
    norm_num
    omega
  refine ⟨hbytes, ?_, by decide⟩
  intro w
  have hlt := jsToUint32_lt w
  rw [hbytes w]
  simp only [List.foldl]
  omega

/-! ### Claim theorems: pseudo-instruction expander -/

/-- The immediate search of replacePlaceholders on an li instruction whose
first operand is a register finds the immediate operand. -/
theorem findImmediateValue_li (rd : Operand) (v : Int) (it : String)
    (opc line : Nat) (hrd : rd.type = OperandType.REGISTER) :
    findImmediateValue (Instruction.mk "li" [rd, immediateOperand v] it opc line) =
      some v := by
  simp [findImmediateValue, immediateOperand, List.find?, hrd]

/-- Claim C3: li with an immediate in the signed 16-bit range expands to the
single instruction addi rd, $zero, v; li with any immediate outside that
range expands to exactly lui rd, high16(v) followed by ori rd, rd, low16(v),
where high16 and low16 are the unsigned halves of the 32-bit value. -/
theorem li_expansion (rd : Operand) (v : Int) (it : String) (opc line : Nat)
    (hrd : rd.type = OperandType.REGISTER) :
    ((-32768 ≤ v ∧ v ≤ 32767) →
      expandPseudoInstruction none (Instruction.mk "li" [rd, immediateOperand v] it opc line) =
        [Instruction.mk "addi" [rd, registerOperand "$zero" 0, immediateOperand v]
          "I_TYPE" 8 line]) ∧
    ((v < -32768 ∨ 32767 < v) →
      expandPseudoInstruction none (Instruction.mk "li" [rd, immediateOperand v] it opc line) =
        [Instruction.mk "lui"
           [rd, Operand.mk OperandType.IMMEDIATE (toString (jsHigh16 v)) none
             (some ((jsHigh16 v : Nat) : Int)) none none] "I_TYPE" 0 line,
         Instruction.mk "ori"
           [rd, rd, Operand.mk OperandType.IMMEDIATE (toString (jsLow16 v)) none
             (some ((jsLow16 v : Nat) : Int)) none none] "I_TYPE" 0 line]) := by
  have hfind := findImmediateValue_li rd v it opc line hrd
  constructor
  · intro h
    simp +decide [expandPseudoInstruction, pseudoLookup, PSEUDO_INSTRUCTIONS,
      getOperandByIndex, immediateOperand, h]
  · intro h
    have hnot : ¬ (-32768 ≤ v ∧ v ≤ 32767) := by omega
    have htype : (immediateOperand v).type = OperandType.IMMEDIATE := rfl
    have himm : (immediateOperand v).immediate = some v := rfl
    simp +decide [expandPseudoInstruction, pseudoLookup, PSEUDO_INSTRUCTIONS,
      getOperandByIndex, htype, himm, hnot, expandSpecialOrTemplate,
      templateExpand, parseExpansion, parseOperandSub, substToken, hfind,
      getInstructionType, INSTRUCTION_TYPES, parseOperandStr, strStarts, listStarts]

/-- Witness for C3 at the boundary: li $t0, 32767 is one addi and
li $t0, 32768 is lui followed by ori with the unsigned halves. -/
theorem li_expansion_witness :
    expandPseudoInstruction none
      (Instruction.mk "li" [registerOperand "$t0" 8, immediateOperand 32767] "I_TYPE" 0 3) =
      [Instruction.mk "addi"
        [registerOperand "$t0" 8, registerOperand "$zero" 0, immediateOperand 32767]
        "I_TYPE" 8 3] ∧
    expandPseudoInstruction none
      (Instruction.mk "li" [registerOperand "$t0" 8, immediateOperand 32768] "I_TYPE" 0 3) =
      [Instruction.mk "lui"
        [registerOperand "$t0" 8,
         Operand.mk OperandType.IMMEDIATE "0" none (some 0) none none] "I_TYPE" 0 3,
       Instruction.mk "ori"
        [registerOperand "$t0" 8, registerOperand "$t0" 8,
         Operand.mk OperandType.IMMEDIATE "32768" none (some 32768) none none]
        "I_TYPE" 0 3] := by
  constructor
  · exact (li_expansion (registerOperand "$t0" 8) 32767 "I_TYPE" 0 3 (by decide)).1
      (by decide)
  · have h := (li_expansion (registerOperand "$t0" 8) 32768 "I_TYPE" 0 3 (by decide)).2
      (by decide)
    rw [h]
    decide

/-- Counterexample to claim C4 as stated: a move instruction with no
operands makes the template placeholders 1 and 2 refer past the operand
list, yet the expansion is not rejected: it silently produces an add
instruction with those operands omitted (only $zero survives), and no
error is signalled anywhere. -/
theorem placeholder_claim_counterexample :
    getOperandByIndex (Instruction.mk "move" [] "I_TYPE" 0 7) 0 = none ∧
    expandPseudoInstruction none (Instruction.mk "move" [] "I_TYPE" 0 7) =
      [Instruction.mk "add" [registerOperand "$zero" 0] "R_TYPE" 0 7] := by
  decide

/-- Claim C4 amended: an out-of-range positional placeholder makes
getOperandByIndex return none and parseExpansion silently drops that
operand; the expansion still succeeds with the operand omitted (shown for
move with an empty operand list). -/
theorem placeholder_out_of_range_dropped (instr : Instruction)
    (hm : instr.mnemonic = "move") (hops : instr.operands = []) :
    getOperandByIndex instr 0 = none ∧
    expandPseudoInstruction none instr =
      [Instruction.mk "add" [registerOperand "$zero" 0] "R_TYPE" 0 instr.lineNumber] := by
  obtain ⟨m, ops, it, opc, ln⟩ := instr
  dsimp only at hm hops
  subst hm
  subst hops
  simp +decide [expandPseudoInstruction, pseudoLookup, PSEUDO_INSTRUCTIONS,
    expandSpecialOrTemplate, templateExpand, parseExpansion, parseOperandSub,
    substToken, parseOperandStr, strStarts, listStarts, getOperandByIndex,
    findLabelName, findImmediateValue, getInstructionType, INSTRUCTION_TYPES]

/-- Witness for the amended C4 at a concrete instruction. -/
theorem placeholder_out_of_range_witness :
    getOperandByIndex (Instruction.mk "move" [] "X" 5 9) 0 = none ∧
    expandPseudoInstruction none (Instruction.mk "move" [] "X" 5 9) =
      [Instruction.mk "add" [registerOperand "$zero" 0] "R_TYPE" 0 9] :=
  placeholder_out_of_range_dropped (Instruction.mk "move" [] "X" 5 9) rfl rfl

/-- A mnemonic outside the pseudo registry expands to itself. -/
theorem expand_of_pseudoLookup_none (ctx : Option (List (String × Nat)))
    (i : Instruction) (h : pseudoLookup i.mnemonic = none) :
    expandPseudoInstruction ctx i = [i] := by
  simp [expandPseudoInstruction, h]

/-- A successful template parse takes its mnemonic from the head token. -/
theorem parseExpansion_mnemonic (tokens : List String) (i : Instruction)
    (ctx : Option (List (String × Nat))) (e : Instruction)
    (h : parseExpansion tokens i ctx = some e) :
    tokens ≠ [] ∧ e.mnemonic = tokens.headD "" := by
  cases tokens with
  | nil => simp [parseExpansion] at h
  | cons m rest =>
    simp only [parseExpansion, Option.some.injEq] at h
    refine ⟨by simp, ?_⟩
    rw [← h]
    rfl

/-- Every member of a template expansion carries some template head as its
mnemonic. -/
theorem mem_templateExpand (tss : List (List String)) (i : Instruction)
    (ctx : Option (List (String × Nat))) (e : Instruction)
    (he : e ∈ templateExpand tss i ctx) :
    ∃ ts ∈ tss, ts ≠ [] ∧ e.mnemonic = ts.headD "" := by
  simp only [templateExpand, List.mem_filterMap] at he
  obtain ⟨ts, hts, hp⟩ := he
  obtain ⟨h1, h2⟩ := parseExpansion_mnemonic ts i ctx e hp
  exact ⟨ts, hts, h1, h2⟩

/-- Every template head in the registry is a real mnemonic. -/
theorem pseudo_template_heads :
    ∀ p ∈ PSEUDO_INSTRUCTIONS, ∀ ts ∈ p.2, pseudoLookup (ts.headD "") = none := by
  decide

/-- A successful pseudo lookup comes from a registry entry. -/
theorem pseudoLookup_mem (m : String) (pd : List (List String))
    (h : pseudoLookup m = some pd) : ∃ p ∈ PSEUDO_INSTRUCTIONS, p.2 = pd := by
  simp only [pseudoLookup, Option.map_eq_some'] at h
  obtain ⟨p, hfind, hp2⟩ := h
  exact ⟨p, List.mem_of_find?_eq_some hfind, hp2⟩

/-- Every output of the special cases or the template machinery has a
mnemonic outside the pseudo registry. -/
theorem mem_expandSpecialOrTemplate (pd : List (List String)) (i : Instruction)
    (ctx : Option (List (String × Nat))) (e : Instruction)
    (hpd : pseudoLookup i.mnemonic = some pd)
    (he : e ∈ expandSpecialOrTemplate pd i ctx) :
    pseudoLookup e.mnemonic = none := by
  unfold expandSpecialOrTemplate at he
  split at he
  · simp only [List.mem_cons, List.mem_singleton, List.not_mem_nil, or_false] at he
    rcases he with he | he <;> subst he
    · exact (by decide : pseudoLookup "addiu" = none)
    · exact (by decide : pseudoLookup "sw" = none)
  · split at he
    · simp only [List.mem_cons, List.mem_singleton, List.not_mem_nil, or_false] at he
      rcases he with he | he <;> subst he
      · exact (by decide : pseudoLookup "lw" = none)
      · exact (by decide : pseudoLookup "addiu" = none)
    · split at he
      · simp only [List.mem_cons, List.mem_singleton, List.not_mem_nil, or_false] at he
        rcases he with he | he <;> subst he
        · exact (by decide : pseudoLookup "slt" = none)
        · exact (by decide : pseudoLookup "bne" = none)
      · split at he
        · simp only [List.mem_cons, List.mem_singleton, List.not_mem_nil, or_false] at he
          rcases he with he | he <;> subst he
          · exact (by decide : pseudoLookup "slt" = none)
          · exact (by decide : pseudoLookup "beq" = none)
        · obtain ⟨ts, hts, hne, hm⟩ := mem_templateExpand pd i ctx e he
          obtain ⟨p, hp, hp2⟩ := pseudoLookup_mem _ _ hpd
          rw [hm]
          exact pseudo_template_heads p hp ts (hp2 ▸ hts)

/-- Claim C9: the expander is idempotent on real instructions: any
instruction whose mnemonic is not in the pseudo registry expands to the
singleton of itself, and every element of any expansion result expands to
the singleton of itself under a second application. -/
theorem expander_idempotent_on_real :
    (∀ (ctx : Option (List (String × Nat))) (i : Instruction),
      pseudoLookup i.mnemonic = none → expandPseudoInstruction ctx i = [i]) ∧
    (∀ (ctx ctx2 : Option (List (String × Nat))) (i e : Instruction),
      e ∈ expandPseudoInstruction ctx i → expandPseudoInstruction ctx2 e = [e]) := by
  refine ⟨expand_of_pseudoLookup_none, ?_⟩
  intro ctx ctx2 i e he
  apply expand_of_pseudoLookup_none
  cases hp : pseudoLookup i.mnemonic with
  | none =>
    rw [expand_of_pseudoLookup_none ctx i hp] at he
    simp only [List.mem_singleton] at he
    subst he
    exact hp
  | some pd =>
    simp only [expandPseudoInstruction, hp] at he
    split at he
    · split at he
      · split at he
        · split at he
          · simp only [List.mem_singleton] at he
            subst he
            exact (by decide : pseudoLookup "addi" = none)
          · exact mem_expandSpecialOrTemplate pd i ctx e hp he
        · exact mem_expandSpecialOrTemplate pd i ctx e hp he
      · exact mem_expandSpecialOrTemplate pd i ctx e hp he
    · exact mem_expandSpecialOrTemplate pd i ctx e hp he

/-! ### Claim theorems: linker -/

/-- When every fragment is within budget, linkAll succeeds with the
composed program text. -/
theorem linkAllCore_ok_within (bs us es hs : String) (b u e h : Nat)
    (hb : b ≤ 320) (hu : u ≤ 5120) (he : e ≤ 320) (hh : h ≤ 704) :
    linkAllCore bs us es hs b u e h =
      Except.ok (buildLinkedProgram bs us es hs b u e h) := by
  have htot : linkTotalLength b u e h * 4 = 65536 := by
    simp only [linkTotalLength, biosNopPadding, userNopPadding, intEntryNopPadding,
      intHandlerNopPadding, MIDDLE_EMPTY_INSTRUCTIONS, BIOS_MAX_INSTRUCTIONS,
      USER_APP_MAX_INSTRUCTIONS, INT_ENTRY_MAX_INSTRUCTIONS,
      INT_HANDLER_MAX_INSTRUCTIONS]
    omega
  simp only [linkAllCore, BIOS_MAX_INSTRUCTIONS, USER_APP_MAX_INSTRUCTIONS,
    INT_ENTRY_MAX_INSTRUCTIONS, INT_HANDLER_MAX_INSTRUCTIONS, TOTAL_MEMORY_SIZE]
  rw [if_neg (by omega), if_neg (by omega), if_neg (by omega), if_neg (by omega),
    if_neg (by omega)]

/-- Claim C5: each fragment whose expanded instruction count exceeds its
region budget (BIOS 320, user 5120, interrupt entry 320, interrupt handler
704) makes linkAll fail with an error naming that fragment and both counts,
with no output; when all four are within budget the checks pass, the
composed text is produced, and each region gets padding equal to budget
minus actual (zero for an exactly full region). -/
theorem linker_budget_enforced (bs us es hs : String) (b u e h : Nat) :
    (BIOS_MAX_INSTRUCTIONS < b →
      linkAllCore bs us es hs b u e h =
        Except.error ("BIOS程序段过长：" ++ toString b ++ "条指令，最多" ++
          toString BIOS_MAX_INSTRUCTIONS ++ "条")) ∧
    (b ≤ BIOS_MAX_INSTRUCTIONS → USER_APP_MAX_INSTRUCTIONS < u →
      linkAllCore bs us es hs b u e h =
        Except.error ("用户程序段过长：" ++ toString u ++ "条指令，最多" ++
          toString USER_APP_MAX_INSTRUCTIONS ++ "条")) ∧
    (b ≤ BIOS_MAX_INSTRUCTIONS → u ≤ USER_APP_MAX_INSTRUCTIONS →
      INT_ENTRY_MAX_INSTRUCTIONS < e →
      linkAllCore bs us es hs b u e h =
        Except.error ("中断处理程序入口过长：" ++ toString e ++ "条指令，最多" ++
          toString INT_ENTRY_MAX_INSTRUCTIONS ++ "条")) ∧
    (b ≤ BIOS_MAX_INSTRUCTIONS → u ≤ USER_APP_MAX_INSTRUCTIONS →
      e ≤ INT_ENTRY_MAX_INSTRUCTIONS → INT_HANDLER_MAX_INSTRUCTIONS < h →
      linkAllCore bs us es hs b u e h =
        Except.error ("中断处理程序过长：" ++ toString h ++ "条指令，最多" ++
          toString INT_HANDLER_MAX_INSTRUCTIONS ++ "条")) ∧
    (b ≤ BIOS_MAX_INSTRUCTIONS → u ≤ USER_APP_MAX_INSTRUCTIONS →
      e ≤ INT_ENTRY_MAX_INSTRUCTIONS → h ≤ INT_HANDLER_MAX_INSTRUCTIONS →
      linkAllCore bs us es hs b u e h =
        Except.ok (buildLinkedProgram bs us es hs b u e h) ∧
      b + biosNopPadding b = BIOS_MAX_INSTRUCTIONS ∧
      u + userNopPadding u = USER_APP_MAX_INSTRUCTIONS ∧
      e + intEntryNopPadding e = INT_ENTRY_MAX_INSTRUCTIONS ∧
      h + intHandlerNopPadding h = INT_HANDLER_MAX_INSTRUCTIONS) := by
  refine ⟨?_, ?_, ?_, ?_, ?_⟩
  · intro h1
    simp only [linkAllCore]
    rw [if_pos h1]
  · intro h1 h2
    simp only [linkAllCore]
    rw [if_neg (by omega), if_pos h2]
  · intro h1 h2 h3
    simp only [linkAllCore]
    rw [if_neg (by omega), if_neg (by omega), if_pos h3]
  · intro h1 h2 h3 h4
    simp only [linkAllCore]
    rw [if_neg (by omega), if_neg (by omega), if_neg (by omega), if_pos h4]
  · intro h1 h2 h3 h4
    simp only [BIOS_MAX_INSTRUCTIONS] at h1
    simp only [USER_APP_MAX_INSTRUCTIONS] at h2
    simp only [INT_ENTRY_MAX_INSTRUCTIONS] at h3
    simp only [INT_HANDLER_MAX_INSTRUCTIONS] at h4
    refine ⟨linkAllCore_ok_within bs us es hs b u e h h1 h2 h3 h4, ?_, ?_, ?_, ?_⟩
    · simp only [biosNopPadding, BIOS_MAX_INSTRUCTIONS]
      omega
    · simp only [userNopPadding, USER_APP_MAX_INSTRUCTIONS]
      omega
    · simp only [intEntryNopPadding, INT_ENTRY_MAX_INSTRUCTIONS]
      omega
    · simp only [intHandlerNopPadding, INT_HANDLER_MAX_INSTRUCTIONS]
      omega

/-- Witness for C5: an exactly full user region links with zero user
padding. -/
theorem linker_budget_witness :
    linkAllCore "b" "u" "e" "h" 320 5120 320 704 =
      Except.ok (buildLinkedProgram "b" "u" "e" "h" 320 5120 320 704) ∧
    userNopPadding 5120 = 0 := by
  have h := (linker_budget_enforced "b" "u" "e" "h" 320 5120 320 704).2.2.2.2
    (by decide) (by decide) (by decide) (by decide)
  exact ⟨h.1, by decide⟩

/-- Claim C6: whenever linkAll returns a composed text the five regions
total exactly 16384 instructions (65536 bytes), and whenever the grand
total times 4 differs from 65536 the linker fails with an error rather
than truncating. -/
theorem layout_totality (bs us es hs : String) (b u e h : Nat) :
    (∀ t, linkAllCore bs us es hs b u e h = Except.ok t →
      linkTotalLength b u e h = 16384) ∧
    (linkTotalLength b u e h * 4 ≠ TOTAL_MEMORY_SIZE →
      ∃ msg, linkAllCore bs us es hs b u e h = Except.error msg) := by
  constructor
  · intro t ht
    simp only [linkAllCore] at ht
    split at ht
    · exact absurd ht (by simp)
    split at ht
    · exact absurd ht (by simp)
    split at ht
    · exact absurd ht (by simp)
    split at ht
    · exact absurd ht (by simp)
    split at ht
    · exact absurd ht (by simp)
    next h5 =>
      simp only [TOTAL_MEMORY_SIZE] at h5
      omega
  · intro hne
    simp only [linkAllCore]
    by_cases h1 : BIOS_MAX_INSTRUCTIONS < b
    · rw [if_pos h1]
      exact ⟨_, rfl⟩
    rw [if_neg h1]
    by_cases h2 : USER_APP_MAX_INSTRUCTIONS < u
    · rw [if_pos h2]
      exact ⟨_, rfl⟩
    rw [if_neg h2]
    by_cases h3 : INT_ENTRY_MAX_INSTRUCTIONS < e
    · rw [if_pos h3]
      exact ⟨_, rfl⟩
    rw [if_neg h3]
    by_cases h4 : INT_HANDLER_MAX_INSTRUCTIONS < h
    · rw [if_pos h4]
      exact ⟨_, rfl⟩
    rw [if_neg h4, if_pos hne]
    exact ⟨_, rfl⟩

/-- Witness for C6 at the full layout: the ok result forces the 16384
total. -/
theorem layout_totality_witness : linkTotalLength 320 5120 320 704 = 16384 := by
  have hok := linkAllCore_ok_within "" "" "" "" 320 5120 320 704 (by decide)
    (by decide) (by decide) (by decide)
  exact (layout_totality "" "" "" "" 320 5120 320 704).1 _ hok

/-- Claim C10: countInstructions does not propagate parse failures: when
the parser throws, or reports any diagnostic, the count is the line-count
estimate (trimmed lines that are nonempty, not comments, not directives,
not labels), computed without pseudo-instruction expansion; on a concrete
failing fragment the estimate counts an li line as 1 although its true
expansion is 2 instructions. -/
theorem count_fallback_on_parse_errors :
    (∀ asmCode, countInstructions ParseOutcome.thrown asmCode = countFallback asmCode) ∧
    (∀ asmCode errs textSegment, errs ≠ [] →
      countInstructions (ParseOutcome.parsed errs textSegment) asmCode =
        countFallback asmCode) ∧
    (∀ asmCode, countFallback asmCode =
      (((splitLines asmCode).map jsTrim).filter (fun line =>
        !strIsEmpty line && !strStarts line "#" && !strStarts line "." &&
          !strEnds line ":")).length) ∧
    countInstructions (ParseOutcome.parsed ["parse error"]
      (some [Instruction.mk "li" [registerOperand "$t0" 8, immediateOperand 100000]
        "I_TYPE" 0 1])) "li $t0, 100000" = 1 ∧
    ([Instruction.mk "li" [registerOperand "$t0" 8, immediateOperand 100000]
        "I_TYPE" 0 1].map (fun ins => (expandPseudoInstruction none ins).length)).sum
      = 2 := by
  refine ⟨fun asmCode => rfl, ?_, ?_, by decide, by decide⟩
  · intro asmCode errs textSegment hne
    cases errs with
    | nil => exact absurd rfl hne
    | cons a l => rfl
  · intro asmCode
    simp only [countFallback, List.filter_filter]
    congr 1
    apply List.filter_congr
    intro a _
    cases strIsEmpty a <;> cases strStarts a "#" <;> cases strStarts a "." <;>
      cases strEnds a ":" <;> rfl

/-- Witness for C9: a real add instruction expands to itself, and the addi
produced by expanding li $t0, 32767 expands to itself again. -/
theorem expander_idempotent_witness :
    expandPseudoInstruction none (Instruction.mk "add" [] "R_TYPE" 0 1) =
      [Instruction.mk "add" [] "R_TYPE" 0 1] ∧
    expandPseudoInstruction none
      (Instruction.mk "addi"
        [registerOperand "$t0" 8, registerOperand "$zero" 0, immediateOperand 32767]
        "I_TYPE" 8 3) =
      [Instruction.mk "addi"
        [registerOperand "$t0" 8, registerOperand "$zero" 0, immediateOperand 32767]
        "I_TYPE" 8 3] :=
  ⟨expander_idempotent_on_real.1 none _ (by decide),
   expander_idempotent_on_real.2 none none
     (Instruction.mk "li" [registerOperand "$t0" 8, immediateOperand 32767] "I_TYPE" 0 3)
     _ (by decide)⟩

/-- Witness for C10: a fragment with a parse diagnostic is counted with the
fallback estimate. -/
theorem count_fallback_witness :
    countInstructions (ParseOutcome.parsed ["e"] none) "li $t0, 100000" =
      countFallback "li $t0, 100000" :=
  count_fallback_on_parse_errors.2.1 "li $t0, 100000" ["e"] none (by decide)
